import Mathlib

/-!
Shallow embedding of the incremental article store and digest compiler of
`script.py`. Dates are modelled as integers counting days (the source only
compares calendar dates and subtracts whole days via `timedelta`), and the
persisted JSON store is modelled as an explicit file-state datatype.
-/

set_option autoImplicit false

namespace RSSFeed

/-- The article record built in `download_article` (lines 182-189 of
`script.py`): `title`, `author`, `content`, `image_data`, `url`, `date`.
`date` holds the parsed calendar date (an integer day number). -/
structure Article where
  title : String
  author : String
  content : String
  image_data : List (String × String)
  url : String
  date : Int
deriving DecidableEq

/-- The urls of a sequence of articles, in order: `{a["url"] for a in articles}`
is modelled as membership in this list. -/
def urls (l : List Article) : List String :=
  l.map (fun a => a.url)

/-- The deduplicating merge inlined in `main` (lines 251-252 of `script.py`):
`all_articles += [a for a in new if a["url"] not in {a["url"] for a in all_articles}]`.
The persisted sequence is kept as is; a new record is appended only when its
url does not occur among the persisted urls. -/
def merge_articles (all_articles new_articles : List Article) : List Article :=
  all_articles ++ new_articles.filter (fun a => decide (a.url ∉ urls all_articles))

/-- The loop body of `organize_articles` (lines 221-236 of `script.py`),
recursing over the article list: a record with `date < week_limit` is skipped;
otherwise it is appended to the today bucket when `date == today` and to the
week bucket otherwise, and in either case to the surviving list. -/
def organize_go (today week_limit : Int) :
    List Article → List Article × List Article × List Article
  | [] => ([], [], [])
  | a :: rest =>
    let r := organize_go today week_limit rest
    if a.date < week_limit then r
    else if a.date = today then (a :: r.1, a :: r.2.1, r.2.2)
    else (a :: r.1, r.2.1, a :: r.2.2)

/-- `organize_articles` (lines 212-238 of `script.py`): returns
`(updated_articles, todays_articles, weeks_articles)` relative to the run's
reference date (`today = datetime.today().date()` in the source, passed here
as a parameter), with `week_limit = today - timedelta(days=7)`. -/
def organize_articles (today : Int) (all_articles : List Article) :
    List Article × List Article × List Article :=
  organize_go today (today - 7) all_articles

/-- The retention test of `organize_articles`: a record survives when its date
is not strictly before `today - 7`. -/
def keepB (today : Int) (a : Article) : Bool :=
  decide (¬ a.date < today - 7)

/-- The today-bucket test: surviving and dated exactly on the reference date. -/
def todayB (today : Int) (a : Article) : Bool :=
  keepB today a && decide (a.date = today)

/-- The week-bucket test: surviving and not dated on the reference date. -/
def weekB (today : Int) (a : Article) : Bool :=
  keepB today a && decide (¬ a.date = today)

theorem organize_go_eq (t w : Int) (l : List Article) :
    organize_go t w l =
      (l.filter (fun a => decide (¬ a.date < w)),
       l.filter (fun a => decide (¬ a.date < w) && decide (a.date = t)),
       l.filter (fun a => decide (¬ a.date < w) && decide (¬ a.date = t))) := by
  induction l with
  | nil => rfl
  | cons a rest ih =>
    by_cases h1 : a.date < w
    · simp [organize_go, ih, List.filter_cons, h1]
    · by_cases h2 : a.date = t
      · subst h2
        simp [organize_go, ih, List.filter_cons, h1, le_of_not_lt h1]
      · simp [organize_go, ih, List.filter_cons, h1, h2, le_of_not_lt h1]

theorem organize_articles_eq (t : Int) (l : List Article) :
    organize_articles t l =
      (l.filter (keepB t), l.filter (todayB t), l.filter (weekB t)) :=
  organize_go_eq t (t - 7) l

theorem mem_organize_fst (t : Int) (l : List Article) (a : Article) :
    a ∈ (organize_articles t l).1 ↔ a ∈ l ∧ ¬ a.date < t - 7 := by
  simp [organize_articles_eq, keepB, List.mem_filter]

theorem mem_organize_today (t : Int) (l : List Article) (a : Article) :
    a ∈ (organize_articles t l).2.1 ↔ a ∈ l ∧ ¬ a.date < t - 7 ∧ a.date = t := by
  simp [organize_articles_eq, keepB, todayB, List.mem_filter]

theorem mem_organize_week (t : Int) (l : List Article) (a : Article) :
    a ∈ (organize_articles t l).2.2 ↔ a ∈ l ∧ ¬ a.date < t - 7 ∧ ¬ a.date = t := by
  simp [organize_articles_eq, keepB, weekB, List.mem_filter]

/-- The store file `DATA_FILE` on disk: absent, present but not parsable as
JSON (`raw` holds the bytes), or a parsed JSON document whose `articles` field
may be absent (`none`). -/
inductive StoreFile where
  | missing : StoreFile
  | corrupt (raw : String) : StoreFile
  | doc (articles : Option (List Article)) : StoreFile
deriving DecidableEq

/-- `load_articles` (lines 200-204 of `script.py`): a missing file yields `[]`;
an existing file is parsed with `json.load`, which raises on unparsable data
(modelled as the error branch); a parsed document yields
`.get("articles", [])`. -/
def load_articles : StoreFile → Except String (List Article)
  | .missing => .ok []
  | .corrupt _ => .error "json.decoder.JSONDecodeError"
  | .doc a => .ok (a.getD [])

/-- `save_articles` (lines 207-209 of `script.py`): the file afterwards holds
the document `{"articles": articles}`, with the field always present. -/
def save_articles (articles : List Article) : StoreFile :=
  StoreFile.doc (some articles)

/-- The successive on-disk states during `save_articles`: the prior content,
then the empty (unparsable) file left by `open(DATA_FILE, "w")` truncating in
place, then the fully written document. An interruption mid-save can leave any
of these states on disk. -/
def save_articles_states (old : StoreFile) (articles : List Article) :
    List StoreFile :=
  [old, StoreFile.corrupt "", save_articles articles]

/-- The new records extracted by one run (lines 245-248 of `script.py`): each
discovered link not already among the persisted urls is downloaded, producing
at most one record per link. `download` stands for `download_article`'s
per-url result. -/
def extract_new (download : String → Option Article)
    (all_articles : List Article) (links : List String) : List Article :=
  (links.filter (fun l => decide (l ∉ urls all_articles))).filterMap download

/-- The store-relevant flow of `main` (lines 241-257 of `script.py`): load the
persisted articles, extract new records for undiscovered links, merge,
organize relative to the reference date, and save the survivors. The pair
returned is the final file state and, on success, the two digest buckets. An
uncaught exception from `json.load` aborts before any mutation. -/
def main_run (fs : StoreFile) (links : List String)
    (download : String → Option Article) (today : Int) :
    StoreFile × Except String (List Article × List Article) :=
  match load_articles fs with
  | .error e => (fs, .error e)
  | .ok all_articles =>
    let merged := merge_articles all_articles
      (extract_new download all_articles links)
    let r := organize_articles today merged
    (save_articles r.1, .ok (r.2.1, r.2.2))

/-- The post-load portion of one run as a pure function: merge the new records
into the persisted sequence, then organize. Returns
`(cleaned_articles, todays_articles_final, weeks_articles_final)`. -/
def run_once (today : Int) (new_articles all_articles : List Article) :
    List Article × List Article × List Article :=
  organize_articles today (merge_articles all_articles new_articles)

/-- Outcome of reading the publication date in `download_article` (lines
164-168 of `script.py`): the `time` tag or its `datetime` attribute is absent,
the attribute is present but `datetime.fromisoformat` raises on it, or it
parses to a calendar date. -/
inductive DateRead where
  | absent : DateRead
  | malformed : DateRead
  | parsed (d : Int) : DateRead
deriving DecidableEq

/-- The publication date carried by the record `download_article` produces,
or `none` when no record is produced. `pub_date` is initialised to today and
only overwritten when the attribute is present (lines 164-168); if
`fromisoformat` raises, the broad handler at line 196 drops the article. -/
def download_pub_date (today : Int) : DateRead → Option Int
  | .absent => some today
  | .malformed => none
  | .parsed d => some d

/-- A persisted record as read back from the store before date parsing: the
stored `date` string either parses to a day number or does not (`none`). -/
structure RawArticle where
  url : String
  date : Option Int
deriving DecidableEq

/-- `datetime.fromisoformat(article["date"])` at line 222 of `script.py`:
raises (error branch) when the stored string does not parse. -/
def parse_stored_date : Option Int → Except String Int
  | none => .error "ValueError"
  | some d => .ok d

/-- `organize_articles` on raw stored records: the date of each record is
parsed at line 222 with no handler around it, so the first record whose date
string does not parse aborts the whole run. -/
def organize_articles_raw (today : Int) :
    List RawArticle → Except String (List RawArticle × List RawArticle × List RawArticle)
  | [] => .ok ([], [], [])
  | a :: rest =>
    match parse_stored_date a.date with
    | .error e => .error e
    | .ok d =>
      match organize_articles_raw today rest with
      | .error e => .error e
      | .ok r =>
        if d < today - 7 then .ok r
        else if d = today then .ok (a :: r.1, a :: r.2.1, r.2.2)
        else .ok (a :: r.1, r.2.1, a :: r.2.2)

/-- A sample persisted record. -/
def artOld : Article :=
  { title := "old", author := "The New Yorker", content := "<article>old</article>",
    image_data := [], url := "https://www.newyorker.com/news/a", date := 10 }

/-- A freshly extracted record with the same url as `artOld` but a new title. -/
def artNew : Article :=
  { title := "new", author := "The New Yorker", content := "<article>new</article>",
    image_data := [], url := "https://www.newyorker.com/news/a", date := 10 }

/-- A persisted record dated 10 days before the reference date 10. -/
def artStale : Article :=
  { title := "stale", author := "The New Yorker", content := "<article>s</article>",
    image_data := [], url := "https://www.newyorker.com/news/b", date := 0 }

/-- A fresh record with the same url as `artStale`, dated on the reference
date 10. -/
def artFresh : Article :=
  { title := "fresh", author := "The New Yorker", content := "<article>f</article>",
    image_data := [], url := "https://www.newyorker.com/news/b", date := 10 }

/-- A record dated strictly after the reference date 10. -/
def artFut : Article :=
  { title := "future", author := "The New Yorker", content := "<article>x</article>",
    image_data := [], url := "https://www.newyorker.com/news/c", date := 11 }

theorem urls_append (l1 l2 : List Article) :
    urls (l1 ++ l2) = urls l1 ++ urls l2 :=
  List.map_append _ l1 l2

theorem mem_urls (u : String) (l : List Article) :
    u ∈ urls l ↔ ∃ a ∈ l, a.url = u := by
  simp [urls]

theorem urls_filter_sublist (f : Article → Bool) (l : List Article) :
    List.Sublist (urls (l.filter f)) (urls l) := by
  unfold urls
  exact List.Sublist.map (fun a => a.url) (List.filter_sublist l)

/-- If the persisted urls and the new urls are each pairwise distinct, the
merged sequence's urls are pairwise distinct. -/
theorem merge_urls_nodup (p nw : List Article)
    (hp : (urls p).Nodup) (hn : (urls nw).Nodup) :
    (urls (merge_articles p nw)).Nodup := by
  rw [merge_articles, urls_append, List.nodup_append]
  refine ⟨hp, hn.sublist (urls_filter_sublist _ nw), ?_⟩
  intro u hu1 hu2
  rcases (mem_urls u _).mp hu2 with ⟨a, ha, hau⟩
  have hdec := (List.mem_filter.mp ha).2
  exact (of_decide_eq_true hdec) (hau ▸ hu1)

/-- Records extracted from pairwise-distinct links by a url-faithful download
function have pairwise-distinct urls, each among the links. -/
theorem filterMap_download_urls (download : String → Option Article)
    (hdl : ∀ l a, download l = some a → a.url = l) :
    ∀ links : List String, links.Nodup →
      (urls (links.filterMap download)).Nodup ∧
        ∀ a ∈ links.filterMap download, a.url ∈ links := by
  intro links
  induction links with
  | nil => intro _; exact ⟨List.nodup_nil, by intro a ha; simp at ha⟩
  | cons l ls ih =>
    intro h
    rcases List.nodup_cons.mp h with ⟨hl, hls⟩
    obtain ⟨ih1, ih2⟩ := ih hls
    cases hdown : download l with
    | none =>
      rw [List.filterMap_cons_none hdown]
      exact ⟨ih1, fun a ha => List.mem_cons_of_mem l (ih2 a ha)⟩
    | some b =>
      rw [List.filterMap_cons_some hdown]
      have hbl : b.url = l := hdl l b hdown
      constructor
      · rw [urls, List.map_cons]
        refine List.nodup_cons.mpr ⟨?_, ih1⟩
        intro hc
        rcases (mem_urls _ _).mp hc with ⟨a, ha, hau⟩
        have : a.url ∈ ls := ih2 a ha
        rw [hau, hbl] at this
        exact hl this
      · intro a ha
        rcases List.mem_cons.mp ha with rfl | ha
        · exact hbl ▸ List.mem_cons_self _ _
        · exact List.mem_cons_of_mem l (ih2 a ha)

/-- Every record produced by `extract_new` has a url among the filtered links,
hence not among the persisted urls. -/
theorem extract_new_url_not_persisted (download : String → Option Article)
    (hdl : ∀ l a, download l = some a → a.url = l)
    (p : List Article) (links : List String) :
    ∀ a ∈ extract_new download p links, a.url ∉ urls p := by
  intro a ha
  rcases List.mem_filterMap.mp ha with ⟨l, hl, hdla⟩
  rw [hdl l a hdla]
  exact of_decide_eq_true (List.mem_filter.mp hl).2

/-- C1 counterexample: merging the persisted sequence `[artOld]` with the
newly extracted `[artNew]` — same url, title "new" — yields `[artOld]`
unchanged: the merged sequence does not contain the fresh record, its title
stays "old", contradicting the claim that the record from N supersedes. -/
theorem merge_supersession_counterexample :
    merge_articles [artOld] [artNew] = [artOld] ∧
      artNew ∉ merge_articles [artOld] [artNew] ∧
      (merge_articles [artOld] [artNew]).map (fun a => a.title) = ["old"] := by
  decide

/-- C1 (amended): when a record in N has the same url as a record in P, the
merged sequence keeps the record from P (every persisted record is retained
unchanged) and discards the record from N; when the persisted urls and the
new urls are each pairwise distinct, every url appears exactly once in the
merged sequence. -/
theorem merge_keeps_persisted (p n : List Article)
    (hp : (urls p).Nodup) (hn : (urls n).Nodup) :
    (urls (merge_articles p n)).Nodup ∧
    (∀ a ∈ p, a ∈ merge_articles p n) ∧
    (∀ b ∈ n, b.url ∈ urls p → b ∉ p → b ∉ merge_articles p n) := by
  refine ⟨merge_urls_nodup p n hp hn, ?_, ?_⟩
  · intro a ha
    exact List.mem_append.mpr (Or.inl ha)
  · intro b _ hurl hbp hc
    rcases List.mem_append.mp hc with h | h
    · exact hbp h
    · exact (of_decide_eq_true (List.mem_filter.mp h).2) hurl

/-- Witness for C1 (amended) at the concrete records `artOld`, `artNew`. -/
theorem merge_keeps_persisted_witness :
    artNew ∉ merge_articles [artOld] [artNew] :=
  (merge_keeps_persisted [artOld] [artNew] (by decide) (by decide)).2.2
    artNew (by decide) (by decide) (by decide)

/-- C2: for a record of the input sequence, it is dropped from all three
outputs of `organize_articles` exactly when its date is more than 7 days
before the reference date; a record dated exactly 7 days back survives and
one dated 8 days back is dropped; a survivor is in the today bucket exactly
when dated on the reference date and in the week bucket otherwise; and the
surviving sequence is exactly the union of the two buckets. -/
theorem organize_classification (t : Int) (l : List Article) (a : Article)
    (ha : a ∈ l) :
    (a.date < t - 7 ↔
      a ∉ (organize_articles t l).1 ∧ a ∉ (organize_articles t l).2.1 ∧
        a ∉ (organize_articles t l).2.2) ∧
    (a.date = t - 7 → a ∈ (organize_articles t l).1) ∧
    (a.date = t - 8 → a ∉ (organize_articles t l).1) ∧
    (a ∈ (organize_articles t l).2.1 ↔ a ∈ (organize_articles t l).1 ∧ a.date = t) ∧
    (a ∈ (organize_articles t l).2.2 ↔ a ∈ (organize_articles t l).1 ∧ a.date ≠ t) ∧
    (∀ b : Article, b ∈ (organize_articles t l).1 ↔
      b ∈ (organize_articles t l).2.1 ∨ b ∈ (organize_articles t l).2.2) := by
  simp only [mem_organize_fst, mem_organize_today, mem_organize_week, Ne]
  refine ⟨?_, ?_, ?_, ?_, ?_, ?_⟩
  · constructor
    · intro h
      exact ⟨fun hc => hc.2 h, fun hc => hc.2.1 h, fun hc => hc.2.1 h⟩
    · intro ⟨h1, _, _⟩
      by_contra hc
      exact h1 ⟨ha, hc⟩
  · intro h
    exact ⟨ha, by omega⟩
  · intro h hc
    exact hc.2 (by omega)
  · tauto
  · tauto
  · intro b
    tauto

/-- Witness for C2: with reference date 10, the record `artOld` (dated 10) is
in the input, and lands in the today bucket. -/
theorem organize_classification_witness :
    artOld ∈ (organize_articles 10 [artOld]).2.1 :=
  ((organize_classification 10 [artOld] artOld (by decide)).2.2.2.1).mpr
    ⟨by decide, rfl⟩

/-- C10: a record dated strictly after the reference date is retained and
placed in the week bucket, not the today bucket. -/
theorem future_date_bucketed_thisweek (t : Int) (l : List Article) (a : Article)
    (ha : a ∈ l) (hf : t < a.date) :
    a ∈ (organize_articles t l).1 ∧ a ∈ (organize_articles t l).2.2 ∧
      a ∉ (organize_articles t l).2.1 := by
  refine ⟨(mem_organize_fst t l a).mpr ⟨ha, by omega⟩,
    (mem_organize_week t l a).mpr ⟨ha, by omega, by omega⟩, ?_⟩
  intro hc
  exact absurd ((mem_organize_today t l a).mp hc).2.2 (by omega)

/-- Witness for C10: `artFut` (dated 11) against reference date 10. -/
theorem future_date_bucketed_thisweek_witness :
    artFut ∈ (organize_articles 10 [artFut]).2.2 :=
  (future_date_bucketed_thisweek 10 [artFut] artFut (by decide) (by decide)).2.1

/-- C3 counterexample: `artOld` is dated 10. With reference date 10 it is
bucketed today, with 11 this-week, but with reference date 17 (seven days
later) the store still retains it — it is not dropped, contradicting the
claim that re-running seven days later drops the record. -/
theorem bucket_migration_counterexample :
    artOld ∈ (organize_articles 10 [artOld]).2.1 ∧
      artOld ∈ (organize_articles 11 [artOld]).2.2 ∧
      (organize_articles 17 [artOld]).1 = [artOld] := by
  decide

/-- C3 (amended): a record dated on the reference date is bucketed today;
one day later it is bucketed this-week; seven days later it is still
retained, in the this-week bucket; only eight days later is it dropped from
the persisted store. The bucket is recomputed fresh each run. -/
theorem bucket_migration (d : Int) (l : List Article) (a : Article)
    (ha : a ∈ l) (hd : a.date = d) :
    a ∈ (organize_articles d l).2.1 ∧
    a ∈ (organize_articles (d + 1) l).2.2 ∧
    a ∈ (organize_articles (d + 7) l).2.2 ∧
    a ∉ (organize_articles (d + 8) l).1 := by
  refine ⟨(mem_organize_today d l a).mpr ⟨ha, by omega, hd⟩,
    (mem_organize_week (d + 1) l a).mpr ⟨ha, by omega, by omega⟩,
    (mem_organize_week (d + 7) l a).mpr ⟨ha, by omega, by omega⟩, ?_⟩
  intro hc
  exact absurd (by omega) ((mem_organize_fst (d + 8) l a).mp hc).2

/-- Witness for C3 (amended): `artOld` (dated 10) is dropped with reference
date 18. -/
theorem bucket_migration_witness :
    artOld ∉ (organize_articles 18 [artOld]).1 :=
  (bucket_migration 10 [artOld] artOld (by decide) rfl).2.2.2

/-- C4: a run loading a persisted sequence with pairwise-distinct urls saves
a persisted sequence with pairwise-distinct urls, for the new records a run
extracts (each discovered link, itself unrepeated, yields at most one record
carrying that link as its url). -/
theorem run_preserves_unique_urls (fs : StoreFile) (links : List String)
    (download : String → Option Article) (t : Int) (p : List Article)
    (hload : load_articles fs = Except.ok p) (hp : (urls p).Nodup)
    (hlinks : links.Nodup)
    (hdl : ∀ l a, download l = some a → a.url = l) :
    ∀ cleaned : List Article,
      (main_run fs links download t).1 = save_articles cleaned →
        (urls cleaned).Nodup := by
  intro cleaned hc
  have hrun : (main_run fs links download t).1 =
      save_articles
        (organize_articles t (merge_articles p (extract_new download p links))).1 := by
    simp [main_run, hload]
  rw [hrun] at hc
  have hcl : (organize_articles t
      (merge_articles p (extract_new download p links))).1 = cleaned := by
    simpa [save_articles] using hc
  have hnw : (urls (extract_new download p links)).Nodup :=
    (filterMap_download_urls download hdl _ (hlinks.filter _)).1
  have hM : (urls (merge_articles p (extract_new download p links))).Nodup :=
    merge_urls_nodup _ _ hp hnw
  rw [← hcl, organize_articles_eq]
  exact hM.sublist (urls_filter_sublist _ _)

/-- The download function of the C4 witness: every link yields a record whose
url is that link. -/
def dlWit : String → Option Article :=
  fun l =>
    some { title := "t", author := "The New Yorker", content := "<article>w</article>",
           image_data := [], url := l, date := 10 }

/-- The record `dlWit` produces for the witness link. -/
def artWit : Article :=
  { title := "t", author := "The New Yorker", content := "<article>w</article>",
    image_data := [], url := "https://www.newyorker.com/news/c", date := 10 }

/-- Witness for C4: one persisted record, one new link, reference date 10. -/
theorem run_preserves_unique_urls_witness :
    (urls [artOld, artWit]).Nodup :=
  run_preserves_unique_urls (StoreFile.doc (some [artOld]))
    ["https://www.newyorker.com/news/c"] dlWit 10 [artOld] rfl (by decide)
    (by decide) (fun l a h => by injection h with h2; exact h2 ▸ rfl)
    [artOld, artWit] (by decide)

/-- C5 counterexample: persisted `[artStale]` (url b, dated 0) merged with new
`[artFresh]` (same url b, dated 10) at reference date 10: the first run drops
the stale record and saves the empty store; the second run with the same
input re-adds the fresh record, so the runs disagree. -/
theorem run_once_idempotent_counterexample :
    run_once 10 [artFresh] [artStale] = ([], [], []) ∧
      run_once 10 [artFresh] (run_once 10 [artFresh] [artStale]).1 =
        ([artFresh], [artFresh], []) ∧
      run_once 10 [artFresh] (run_once 10 [artFresh] [artStale]).1 ≠
        run_once 10 [artFresh] [artStale] := by
  decide

/-- C5 (amended): when no new record shares a url with a persisted record —
as in the program, which never downloads a link already persisted —
merge-then-organize applied to its own surviving output with the same new
records and the same reference date returns the identical triple of
persisted sequence, today bucket and week bucket. -/
theorem run_once_idempotent (t : Int) (nw p : List Article)
    (hd : ∀ b ∈ nw, b.url ∉ urls p) :
    run_once t nw (run_once t nw p).1 = run_once t nw p := by
  have hmerge1 : merge_articles p nw = p ++ nw := by
    rw [merge_articles, List.filter_eq_self.mpr]
    intro a ha
    exact decide_eq_true (hd a ha)
  have h1 : run_once t nw p =
      ((p ++ nw).filter (keepB t), (p ++ nw).filter (todayB t),
        (p ++ nw).filter (weekB t)) := by
    rw [run_once, hmerge1, organize_articles_eq]
  have h1f : (run_once t nw p).1 = (p ++ nw).filter (keepB t) := by
    rw [h1]
  have hjunk : ∀ j ∈ nw.filter
      (fun a => decide (a.url ∉ urls ((p ++ nw).filter (keepB t)))),
      keepB t j = false := by
    intro j hj
    rcases List.mem_filter.mp hj with ⟨hjn, hjd⟩
    cases hkk : keepB t j with
    | false => rfl
    | true =>
      have hjm : j ∈ (p ++ nw).filter (keepB t) :=
        List.mem_filter.mpr ⟨List.mem_append.mpr (Or.inr hjn), hkk⟩
      exact absurd ((mem_urls j.url _).mpr ⟨j, hjm, rfl⟩) (of_decide_eq_true hjd)
  have hfj : ∀ f : Article → Bool, (∀ j, keepB t j = false → f j = false) →
      List.filter f (nw.filter
        (fun a => decide (a.url ∉ urls ((p ++ nw).filter (keepB t))))) = [] := by
    intro f hf
    rw [List.filter_eq_nil_iff]
    intro a ha
    simp [hf a (hjunk a ha)]
  have hff : ∀ f : Article → Bool, (∀ a, f a = true → keepB t a = true) →
      List.filter f ((p ++ nw).filter (keepB t)) = (p ++ nw).filter f := by
    intro f hf
    rw [List.filter_filter]
    apply List.filter_congr
    intro a _
    cases hfa : f a
    · simp
    · simp [hf a hfa]
  have h2 : run_once t nw (run_once t nw p).1 =
      ((p ++ nw).filter (keepB t), (p ++ nw).filter (todayB t),
        (p ++ nw).filter (weekB t)) := by
    rw [h1f]
    simp only [run_once, merge_articles]
    rw [organize_articles_eq]
    simp only [Prod.mk.injEq]
    refine ⟨?_, ?_, ?_⟩
    · rw [List.filter_append, hfj (keepB t) (fun j h => h),
        hff (keepB t) (fun a h => h), List.append_nil]
    · rw [List.filter_append, hfj (todayB t) ?hj1, hff (todayB t) ?hf1,
        List.append_nil]
      case hj1 =>
        intro j h
        simp [todayB, h]
      case hf1 =>
        intro a h
        exact ((Bool.and_eq_true _ _).mp h).1
    · rw [List.filter_append, hfj (weekB t) ?hj2, hff (weekB t) ?hf2,
        List.append_nil]
      case hj2 =>
        intro j h
        simp [weekB, h]
      case hf2 =>
        intro a h
        exact ((Bool.and_eq_true _ _).mp h).1
  rw [h2, h1]

/-- Witness for C5 (amended): `artFut`'s url is not among the persisted urls
of `[artOld]`. -/
theorem run_once_idempotent_witness :
    run_once 10 [artFut] (run_once 10 [artFut] [artOld]).1 =
      run_once 10 [artFut] [artOld] :=
  run_once_idempotent 10 [artFut] [artOld] (by decide)

/-- C6: loading a missing store file yields the empty sequence without
failing, and a parsed document lacking the articles field is treated as an
empty array. -/
theorem load_articles_tolerant :
    load_articles StoreFile.missing = Except.ok ([] : List Article) ∧
      load_articles (StoreFile.doc none) = Except.ok ([] : List Article) :=
  ⟨rfl, rfl⟩

/-- C7: when the store file exists but is unparsable, the run stops with the
load error before any mutation: the resulting file state is the untouched
prior file, and save is never reached. -/
theorem corrupt_store_aborts_untouched (raw : String) (links : List String)
    (download : String → Option Article) (t : Int) :
    (main_run (StoreFile.corrupt raw) links download t).1 =
        StoreFile.corrupt raw ∧
      (main_run (StoreFile.corrupt raw) links download t).2 =
        Except.error "json.decoder.JSONDecodeError" :=
  ⟨rfl, rfl⟩

/-- C8 counterexample: saving `[artNew]` over a store holding `[artOld]`
passes through the truncated empty file, a reachable mid-save state that is
neither the complete old content nor the complete new content — the write is
not atomic. -/
theorem save_not_atomic_counterexample :
    StoreFile.corrupt "" ∈ save_articles_states (save_articles [artOld]) [artNew] ∧
      StoreFile.corrupt "" ≠ save_articles [artOld] ∧
      StoreFile.corrupt "" ≠ save_articles [artNew] := by
  refine ⟨List.mem_cons_of_mem _ (List.mem_cons_self _ _), ?_, ?_⟩ <;> decide

/-- C8 (amended): `save_articles` overwrites the store file in place rather
than atomically: the write starts from the prior content, passes through the
truncated unparsable empty file, and only an uninterrupted save ends with the
complete new document holding the full sequence. -/
theorem save_articles_states_spec (old : StoreFile) (articles : List Article) :
    (save_articles_states old articles).head? = some old ∧
      StoreFile.corrupt "" ∈ save_articles_states old articles ∧
      (save_articles_states old articles).getLast? =
        some (StoreFile.doc (some articles)) :=
  ⟨rfl, List.mem_cons_of_mem _ (List.mem_cons_self _ _), rfl⟩

/-- C9 counterexample: a malformed publication date is not recovered. In
`download_article` the record is dropped (`fromisoformat` raises into the
broad per-article handler), and `organize_articles` applied to a stored
record whose date string does not parse fails the whole run instead of
defaulting the record to the reference date. -/
theorem malformed_date_counterexample :
    download_pub_date 10 DateRead.malformed = none ∧
      organize_articles_raw 10 [{ url := "u", date := none }] =
        Except.error "ValueError" :=
  ⟨rfl, rfl⟩

/-- C9 (amended): only an absent date attribute is recovered: the extracted
record then carries the run's reference date as its publication date, and the
retention-and-bucketing computation places such a record in the today
bucket. -/
theorem absent_date_defaults_today (t : Int) (a : Article) (l : List Article)
    (ha : a ∈ l) (hdate : download_pub_date t DateRead.absent = some a.date) :
    a.date = t ∧ a ∈ (organize_articles t l).2.1 := by
  have ht : a.date = t :=
    (Option.some.inj (hdate : (some t : Option Int) = some a.date)).symm
  exact ⟨ht, (mem_organize_today t l a).mpr ⟨ha, by omega, ht⟩⟩

/-- Witness for C9 (amended): `artOld` (dated 10) with reference date 10. -/
theorem absent_date_defaults_today_witness :
    artOld.date = 10 ∧ artOld ∈ (organize_articles 10 [artOld]).2.1 :=
  absent_date_defaults_today 10 artOld [artOld] (by decide) rfl

end RSSFeed
